import Mathlib

/-!
Verification development for the chaosmeta core: a shallow embedding of the
process executor (`pkg/utils/cmdexec/cmd.go`), the container-runtime client
factory (`pkg/crclient/client.go`), the target analyzer
(`pkg/controller/selector`), and the recover phase handler, together with
theorems settling the specification's claims about them.
-/

deriving instance DecidableEq for Except

namespace Chaosmeta

/-! ### Go string search (strings.Index / substring containment) -/

/-- First index (as `Option`) at which `sub` occurs in `s`, over character
lists; mirrors Go's `strings.Index` (which returns `-1`, i.e. `none`, when
absent). -/
def strsIndex (sub : List Char) : List Char → Option Nat
  | [] => if sub.isPrefixOf ([] : List Char) then some 0 else none
  | c :: t => if sub.isPrefixOf (c :: t) then some 0 else (strsIndex sub t).map (· + 1)

/-- `strings.Index(s, sub) >= 0`: `sub` occurs somewhere in `s`. -/
def goContains (s sub : String) : Bool := (strsIndex sub.data s.data).isSome

/-! ### Process executor (`pkg/utils/cmdexec/cmd.go`) -/

/-- `InjectCheckInterval = time.Millisecond * 200`, in milliseconds. -/
def InjectCheckInterval : Nat := 200

/-- Errors produced by `waitProExec`: `inject error: %s` when the combined
output contains `"error"`, `unexpected output: %s` otherwise when it lacks
`"[success]"`. -/
inductive WaitErr where
  | injectError (msg : String)
  | unexpectedOutput (msg : String)
  deriving DecidableEq

/-- The classification step of `waitProExec` on the combined
`stdout.String() + stderr.String()` text: `"error"` substring fails with
`injectError`, else `"[success]"` substring succeeds, else
`unexpectedOutput`. -/
def waitProExec (stdout stderr : String) : Except WaitErr Unit :=
  let msg := stdout ++ stderr
  if goContains msg "error" then .error (.injectError msg)
  else if goContains msg "[success]" then .ok ()
  else .error (.unexpectedOutput msg)

/-- Both buffers read as empty strings (the condition under which the polling
loop of `waitProExec` keeps waiting). -/
def bothEmpty (p : String × String) : Bool := p.1 = "" && p.2 = ""

/-- Wall-clock time (ms) of the `k`-th buffer check: the timer first fires
one interval after start and is reset to the same fixed interval each
iteration. -/
def pollCheckTime (k : Nat) : Nat := (k + 1) * InjectCheckInterval

/-- Given the sequence of `(stdout, stderr)` buffer snapshots observed at the
successive timer fires, the poll loop of `waitProExec` exits at check `k` iff
the buffers are first non-empty there; the loop has no other exit (no
deadline, no cancellation input: the Go function's only parameters are the
two buffers). -/
def pollStopsAt (obs : Nat → String × String) (k : Nat) : Prop :=
  bothEmpty (obs k) = false ∧ ∀ j, j < k → bothEmpty (obs j) = true

/-- `utils.NoPid`: the sentinel PID returned when no process was started.
Modelled from the spec: "the no-PID sentinel" (`utils.NoPid` is not under
`src/`); its concrete value is irrelevant to the claims. -/
def NoPid : Int := -1

/-- A successfully started child process, with its PID and the buffer
contents captured when the poll loop first saw output. -/
structure ChildProc where
  pid : Int
  stdout : String
  stderr : String
  deriving DecidableEq

/-- Errors of `StartBashCmdAndWaitPid`: `cmd start error: %s` or
`wait process exec error: %s`. -/
inductive CmdErr where
  | startError (e : String)
  | waitError (e : WaitErr)
  deriving DecidableEq

/-- Result of a PID-returning executor call: the returned PID, the returned
error (if any), and the command line actually handed to `/bin/bash -c`
(`none` when no process start was attempted). -/
structure ExecOutcome where
  pid : Int
  err : Option CmdErr
  started : Option String
  deriving DecidableEq

/-- `StartBashCmdAndWaitPid`: starts `/bin/bash -c cmd` (the OS start
behaviour is the parameter `startProc`), and on successful start waits for
and classifies the first output; the child's PID is returned both when
classification succeeds and when it fails, `NoPid` only when the start
itself fails. -/
def StartBashCmdAndWaitPid (startProc : String → Except String ChildProc)
    (cmd : String) : ExecOutcome :=
  match startProc cmd with
  | .error e => { pid := NoPid, err := some (.startError e), started := some cmd }
  | .ok c =>
    match waitProExec c.stdout c.stderr with
    | .error e => { pid := c.pid, err := some (.waitError e), started := some cmd }
    | .ok _ => { pid := c.pid, err := none, started := some cmd }

/-! ### Container runtime client factory (`pkg/crclient/client.go`) -/

def CrLocal : String := "local"

def CrDocker : String := "docker"

def CrContainerd : String := "containerd"

/-- A constructed container-runtime client. Modelled from the spec: the
docker client constructor `docker.GetClient` is not under `src/`; following
§3 ("Client instances are constructed once per runtime kind and reused",
stateless per call) it is modelled as successful construction of the docker
capability set. -/
inductive Client where
  | docker
  deriving DecidableEq

/-- Errors of the factory: `to be supported` for containerd,
`not support container runtime: %s` otherwise. -/
inductive GetClientErr where
  | toBeSupported
  | notSupport (cr : String)
  deriving DecidableEq

/-- `crclient.GetClient`: Go returns the pair `(Client, error)`, either of
which may be nil; the switch handles `docker` and `containerd`, every other
identifier (including `local`) takes the default branch. -/
def GetClient (cr : String) : Option Client × Option GetClientErr :=
  if cr = CrDocker then (some .docker, none)
  else if cr = CrContainerd then (none, some .toBeSupported)
  else (none, some (.notSupport cr))

/-! ### ExecContainer (`pkg/utils/cmdexec/cmd.go`) -/

def execnsKey : String := "chaosmeta_execns"

/-- Environment of `ExecContainer`: `utils.GetToolPath` (tool-key to binary
path, not under `src/`), the runtime client's `GetPidById` for the target
container, and the OS process-start behaviour. -/
structure ExecEnv where
  toolPath : String → String
  getPid : String → Except String Int
  startProc : String → Except String ChildProc

/-- Errors of `ExecContainer`: `get cr[%s] client error: %s`,
`get pid of container[%s]'s init process error: %s`, or an error of the
started command. -/
inductive ContainerExecErr where
  | getClientError (cr : String) (e : GetClientErr)
  | getPidError (containerId : String) (e : String)
  | cmdError (e : CmdErr)
  deriving DecidableEq

/-- Result of `ExecContainer`: returned PID, returned error, and the command
line handed to the bash start (`none` when resolution failed before any
start). -/
structure ContainerExecOutcome where
  pid : Int
  err : Option ContainerExecErr
  started : Option String
  deriving DecidableEq

/-- `cmdexec.ExecContainer`: resolves the runtime client, then the
container's init PID, then starts the namespace-entering helper as
`<tool> <pid> <namespaces> <cmd>` (Go's
`fmt.Sprintf("%s %d %s %s", ...)`); a resolution failure returns `NoPid`
with the wrapped error and starts nothing. -/
def ExecContainer (env : ExecEnv) (cmd cr containerId namespaces : String) :
    ContainerExecOutcome :=
  match (GetClient cr).2 with
  | some e => { pid := NoPid, err := some (.getClientError cr e), started := none }
  | none =>
    match env.getPid containerId with
    | .error e => { pid := NoPid, err := some (.getPidError containerId e), started := none }
    | .ok targetPid =>
      let full := env.toolPath execnsKey ++ " " ++ toString targetPid ++ " "
        ++ namespaces ++ " " ++ cmd
      let r := StartBashCmdAndWaitPid env.startProc full
      { pid := r.pid, err := r.err.map .cmdError, started := r.started }

/-! ### Target analyzer (`pkg/controller/selector`) -/

/-- Errors of the analyzer's container resolution, structured counterparts of
Go's `fmt.Errorf` messages: `no container in pod`, `not found container %s`,
`parse container id[%s] error`, and the per-pod wrapper
`get target container[...] in pod[%s] error: %s`. -/
inductive SelErr where
  | noContainerInPod
  | containerNotFound (containerName : String)
  | parseContainerId (id : String)
  | inPod (podName : String) (e : SelErr)
  deriving DecidableEq

/-- `v1alpha1.FirstContainer`. Modelled from the spec: the sentinel
"first container" marker (`v1alpha1` is not under `src/`); only its identity
as a distinguished string matters. -/
def FirstContainer : String := "firstcontainer"

/-- `model.ParseContainerID`. Modelled from the spec: the analyzer returns a
"(runtime-kind, container-ID)" pair "parsed from the selected status"
(`model` is not under `src/`); a Kubernetes container ID has the form
`<runtime>://<id>`, and a string without the separator fails. -/
def ParseContainerID (s : String) : Except SelErr (String × String) :=
  match strsIndex "://".data s.data with
  | none => .error (.parseContainerId s)
  | some i => .ok (⟨s.data.take i⟩, ⟨s.data.drop (i + 3)⟩)

/-- One entry of a pod's `status.containerStatuses`. -/
structure ContainerStatus where
  name : String
  containerID : String
  deriving DecidableEq

/-- The fields of a listed Kubernetes pod that the analyzer reads. -/
structure KPod where
  name : String
  uid : String
  podIP : String
  namespc : String
  nodeName : String
  hostIP : String
  containerStatuses : List ContainerStatus
  deriving DecidableEq

/-- `model.PodObject` as populated by the analyzer. -/
structure PodObject where
  podName : String
  podUID : String
  podIP : String
  namespc : String
  nodeName : String
  nodeIP : String
  containerRuntime : String
  containerID : String
  containerName : String
  deriving DecidableEq

/-- Parse the selected container status into the
`(runtime, containerID, containerName)` triple, as the tail of
`GetTargetContainer` does. -/
def packContainer (c : ContainerStatus) : Except SelErr (String × String × String) :=
  match ParseContainerID c.containerID with
  | .error e => .error e
  | .ok (r, id) => .ok (r, id, c.name)

/-- `selector.GetTargetContainer`: empty status list fails with
`no container in pod`; the `FirstContainer` sentinel selects the first
status, an explicit name the first status with that name (failing with
`not found container` when absent); the selected status is parsed into the
`(runtime, id, name)` triple. -/
def GetTargetContainer (containerName : String) (status : List ContainerStatus) :
    Except SelErr (String × String × String) :=
  match status with
  | [] => .error .noContainerInPod
  | s0 :: rest =>
    match (if containerName = FirstContainer then some s0
           else (s0 :: rest).find? (fun c => c.name = containerName)) with
    | none => .error (.containerNotFound containerName)
    | some c => packContainer c

/-- Build the `PodObject` for one listed pod, resolving the requested
container when `containerName` is non-empty, exactly as the loop body of
`GetPodListByPodName` / `GetPodListByLabel` does (the container-resolution
error is wrapped with the pod's name). -/
def buildPodObject (containerName : String) (p : KPod) : Except SelErr PodObject :=
  let base : PodObject :=
    { podName := p.name, podUID := p.uid, podIP := p.podIP, namespc := p.namespc,
      nodeName := p.nodeName, nodeIP := p.hostIP,
      containerRuntime := "", containerID := "", containerName := "" }
  if containerName = "" then .ok base
  else
    match GetTargetContainer containerName p.containerStatuses with
    | .error e => .error (.inPod p.name e)
    | .ok (r, id, nm) =>
      .ok { base with containerRuntime := r, containerID := id, containerName := nm }

/-- `Analyzer.GetPodListByPodName`, as a function of the full pod listing of
the namespace (the `ApiServer.List` result): walk the listing in order, skip
pods whose name is not in the requested set (`podNameMap`), build each kept
pod's object, and abort with the first container-resolution error. -/
def GetPodListByPodName (podName : List String) (containerName : String) :
    List KPod → Except SelErr (List PodObject)
  | [] => .ok []
  | p :: rest =>
    if podName.contains p.name then
      match buildPodObject containerName p with
      | .error e => .error e
      | .ok o => (GetPodListByPodName podName containerName rest).map (o :: ·)
    else GetPodListByPodName podName containerName rest

/-- One entry of a node's `status.addresses`. -/
structure NodeAddress where
  addrType : String
  address : String
  deriving DecidableEq

/-- The fields of a listed Kubernetes node that the analyzer reads. -/
structure KNode where
  name : String
  addresses : List NodeAddress
  deriving DecidableEq

/-- `model.NodeObject` as populated by the analyzer. -/
structure NodeObject where
  nodeName : String
  nodeInternalIP : String
  hostName : String
  containerRuntime : String
  containerID : String
  deriving DecidableEq

/-- The address loop of the node resolvers: an `InternalIP` address sets the
internal IP, a `Hostname` address the host name (later entries overwrite). -/
def nodeAddrFold (n : NodeObject) (a : NodeAddress) : NodeObject :=
  if a.addrType = "InternalIP" then { n with nodeInternalIP := a.address }
  else if a.addrType = "Hostname" then { n with hostName := a.address }
  else n

/-- Build the `NodeObject` for one listed node, as the loop body of
`GetNodeListByNodeName` does: fold the addresses, then, when a container
name is supplied, parse it as `runtime://id`. -/
def buildNodeObject (containerName : String) (node : KNode) : Except SelErr NodeObject :=
  let base := node.addresses.foldl nodeAddrFold
    { nodeName := node.name, nodeInternalIP := "", hostName := "",
      containerRuntime := "", containerID := "" }
  if containerName = "" then .ok base
  else
    match ParseContainerID containerName with
    | .error e => .error e
    | .ok (r, id) => .ok { base with containerRuntime := r, containerID := id }

/-- `Analyzer.GetNodeListByNodeName`, as a function of the full node listing
(the unfiltered `ApiServer.List` result): walk the listing in order, skip
nodes not in the requested set (`nodeNameMap`), and abort with the first
parse error. -/
def GetNodeListByNodeName (nodeName : List String) (containerName : String) :
    List KNode → Except SelErr (List NodeObject)
  | [] => .ok []
  | n :: rest =>
    if nodeName.contains n.name then
      match buildNodeObject containerName n with
      | .error e => .error e
      | .ok o => (GetNodeListByNodeName nodeName containerName rest).map (o :: ·)
    else GetNodeListByNodeName nodeName containerName rest

/-- Run an `Except`-valued function over a list, keeping the successes in
order and aborting at the first error (the shape shared by the analyzer's
filter-then-build loops). -/
def listMapExcept (f : α → Except ε β) : List α → Except ε (List β)
  | [] => .ok []
  | a :: l =>
    match f a with
    | .error e => .error e
    | .ok b => (listMapExcept f l).map (b :: ·)

/-! ### Phase handler and worker pool (recover direction) -/

/-- `v1alpha1.StatusType` values used by the phase state machine. -/
inductive StatusType where
  | created
  | running
  | success
  | failed
  deriving DecidableEq

/-- A detail unit is terminal when it reached `Success` or `Failed`. -/
def isTerminal : StatusType → Bool
  | .success => true
  | .failed => true
  | _ => false

/-- `v1alpha1.ExperimentDetailUnit`: one record per target per direction. -/
structure DetailUnit where
  injectObjectName : String
  uid : String
  status : StatusType
  deriving DecidableEq

/-- The experiment status fields the recover phase handler reads and
writes: the overall status and the recover-direction detail list. -/
structure ExpStatus where
  status : StatusType
  recover : List DetailUnit
  deriving DecidableEq

/-- Modelled from the spec: the per-target step of the recover handler's
`SolveRunning` (`phasehandler/recover/handler.go` is not under `src/`; only
its test is): for a target currently `Running`, re-resolve and call
`QueryExperiment`; "A query failure for one target marks that target
`Failed` and does not affect sibling targets", a successful query reports
the target's current state; targets not `Running` are left unchanged. -/
def solveRunningUnit (query : DetailUnit → Except String StatusType)
    (u : DetailUnit) : DetailUnit :=
  if u.status = .running then
    match query u with
    | .error _ => { u with status := .failed }
    | .ok s => { u with status := s }
  else u

/-- Modelled from the spec: the recover handler's `SolveRunning` pass
(`phasehandler/recover/handler.go` is not under `src/`): every `Running`
target is queried; "once every target detail reaches a terminal state,
aggregate: overall status is `Succeeded` only if all targets succeeded,
otherwise `Failed`". -/
def SolveRunning (query : DetailUnit → Except String StatusType)
    (st : ExpStatus) : ExpStatus :=
  let units := st.recover.map (solveRunningUnit query)
  let overall :=
    if units.all (fun u => isTerminal u.status) then
      (if units.all (fun u => u.status = .success) then StatusType.success
       else StatusType.failed)
    else st.status
  { status := overall, recover := units }

/-- Modelled from the spec: the shared bounded worker pool
(`pkg/common` goroutine pool, not under `src/`); `GetLen` is its
outstanding-count, the number of submitted tasks not yet completed. -/
structure GoroutinePool where
  size : Nat
  outstanding : Nat
  deriving DecidableEq

/-- A freshly constructed pool (`common.SetGoroutinePool(size)`) has no
outstanding work. -/
def mkPool (size : Nat) : GoroutinePool := { size := size, outstanding := 0 }

/-- Submitting one per-target task to the pool. -/
def submitTask (p : GoroutinePool) : GoroutinePool :=
  { p with outstanding := p.outstanding + 1 }

/-- One submitted task completing. -/
def finishTask (p : GoroutinePool) : GoroutinePool :=
  { p with outstanding := p.outstanding - 1 }

/-- The pool's outstanding-count (`GetGoroutinePool().GetLen()`). -/
def GetLen (p : GoroutinePool) : Nat := p.outstanding

/-- Modelled from the spec: a phase-handler pass (`SolveCreated` or
`SolveRunning`) "fans out per-target work to the pool and blocks until all
submissions have completed before returning" — one submission per target,
then a full join of every submission before the pass ends. -/
def runPhasePass (p : GoroutinePool) (targets : List α) : GoroutinePool :=
  let afterSubmit := targets.foldl (fun q _ => submitTask q) p
  targets.foldl (fun q _ => finishTask q) afterSubmit

/-! ## Helper lemmas -/

/-- `StartBashCmdAndWaitPid` always hands exactly its command line to the
bash start attempt. -/
lemma startBashCmdAndWaitPid_started (sp : String → Except String ChildProc)
    (cmd : String) : (StartBashCmdAndWaitPid sp cmd).started = some cmd := by
  rcases hsp : sp cmd with e | c <;> simp [StartBashCmdAndWaitPid, hsp]
  rcases hw : waitProExec c.stdout c.stderr with w | u <;> simp [hw]

/-- `StartBashCmdAndWaitPid` returns the child's PID whenever the start
succeeded, whatever the classification outcome. -/
lemma startBashCmdAndWaitPid_pid_of_ok (sp : String → Except String ChildProc)
    (cmd : String) (c : ChildProc) (h : sp cmd = .ok c) :
    (StartBashCmdAndWaitPid sp cmd).pid = c.pid := by
  rcases hw : waitProExec c.stdout c.stderr with w | u <;>
    simp [StartBashCmdAndWaitPid, h, hw]

/-! ## Claim theorems: process executor and runtime client -/

/-- C1: the signal-waiting executor classifies the captured combined
stdout+stderr text by: `"error"` substring → injection error carrying the
message; else `"[success]"` substring → success; else unexpected-output
error carrying the message. -/
theorem claim1_waitProExec_classification (stdout stderr : String) :
    (goContains (stdout ++ stderr) "error" = true →
      waitProExec stdout stderr = .error (.injectError (stdout ++ stderr))) ∧
    (goContains (stdout ++ stderr) "error" = false →
      goContains (stdout ++ stderr) "[success]" = true →
      waitProExec stdout stderr = .ok ()) ∧
    (goContains (stdout ++ stderr) "error" = false →
      goContains (stdout ++ stderr) "[success]" = false →
      waitProExec stdout stderr = .error (.unexpectedOutput (stdout ++ stderr))) := by
  refine ⟨fun h1 => ?_, fun h1 h2 => ?_, fun h1 h2 => ?_⟩ <;>
    simp [waitProExec, h1]
  · simp [h2]
  · simp [h2]

/-- Witness for C1 at concrete outputs: success marker without the error
marker succeeds, an error marker fails with the injection error, unrelated
output fails with the unexpected-output error. -/
theorem claim1_witness :
    waitProExec "inject " "[success] running" = .ok () ∧
    waitProExec "boom " "error hit" = .error (.injectError ("boom " ++ "error hit")) ∧
    waitProExec "hello " "world" = .error (.unexpectedOutput ("hello " ++ "world")) := by
  refine ⟨?_, ?_, ?_⟩
  · exact (claim1_waitProExec_classification "inject " "[success] running").2.1
      (by decide) (by decide)
  · exact (claim1_waitProExec_classification "boom " "error hit").1 (by decide)
  · exact (claim1_waitProExec_classification "hello " "world").2.2
      (by decide) (by decide)

/-- C2: the runtime-client factory handles each selectable identifier —
`docker` yields a client, `containerd` fails with the explicit
to-be-supported error, `local` (and every identifier outside the switch
cases) fails with the unsupported-runtime error — and never returns a nil
client together with a nil error. -/
theorem claim2_getClient_dispatch (cr : String) :
    GetClient CrDocker = (some .docker, none) ∧
    GetClient CrContainerd = (none, some .toBeSupported) ∧
    GetClient CrLocal = (none, some (.notSupport CrLocal)) ∧
    (cr ≠ CrDocker → cr ≠ CrContainerd →
      GetClient cr = (none, some (.notSupport cr))) ∧
    ¬((GetClient cr).1 = none ∧ (GetClient cr).2 = none) := by
  refine ⟨by decide, by decide, by decide, fun h1 h2 => ?_, ?_⟩
  · simp [GetClient, h1, h2]
  · unfold GetClient
    by_cases h1 : cr = CrDocker
    · subst h1; simp
    · by_cases h2 : cr = CrContainerd
      · subst h2; simp [CrContainerd, CrDocker]
      · simp [h1, h2]

/-- Witness for C2 at a concrete unknown identifier. -/
theorem claim2_witness :
    GetClient "cri-o" = (none, some (.notSupport "cri-o")) :=
  (claim2_getClient_dispatch "cri-o").2.2.2.1 (by decide) (by decide)

/-- C5: `StartBashCmdAndWaitPid` returns the live child's PID regardless of
the sentinel classification outcome — both on success and on a
classification error — and returns the no-PID sentinel exactly when the
start itself fails. -/
theorem claim5_startAndWaitPid_returns_pid
    (startProc : String → Except String ChildProc) (cmd : String) :
    (∀ c, startProc cmd = .ok c → waitProExec c.stdout c.stderr = .ok () →
      StartBashCmdAndWaitPid startProc cmd =
        { pid := c.pid, err := none, started := some cmd }) ∧
    (∀ c w, startProc cmd = .ok c → waitProExec c.stdout c.stderr = .error w →
      StartBashCmdAndWaitPid startProc cmd =
        { pid := c.pid, err := some (.waitError w), started := some cmd }) ∧
    (∀ e, startProc cmd = .error e →
      StartBashCmdAndWaitPid startProc cmd =
        { pid := NoPid, err := some (.startError e), started := some cmd }) := by
  refine ⟨fun c hc hw => ?_, fun c w hc hw => ?_, fun e he => ?_⟩ <;>
    simp [StartBashCmdAndWaitPid, *]

/-- Witness for C5: a start returning PID 42 yields 42 both when the output
classifies as success and when it classifies as an injection error; a
failed start yields the no-PID sentinel. -/
theorem claim5_witness :
    StartBashCmdAndWaitPid (fun _ => .ok ⟨42, "[success]", ""⟩) "inject.sh" =
      { pid := 42, err := none, started := some "inject.sh" } ∧
    StartBashCmdAndWaitPid (fun _ => .ok ⟨42, "error!", ""⟩) "inject.sh" =
      { pid := 42, err := some (.waitError (.injectError ("error!" ++ ""))),
        started := some "inject.sh" } ∧
    StartBashCmdAndWaitPid (fun _ => .error "no bash") "inject.sh" =
      { pid := NoPid, err := some (.startError "no bash"), started := some "inject.sh" } := by
  refine ⟨?_, ?_, ?_⟩
  · exact (claim5_startAndWaitPid_returns_pid (fun _ => .ok ⟨42, "[success]", ""⟩)
      "inject.sh").1 ⟨42, "[success]", ""⟩ rfl (by decide)
  · exact (claim5_startAndWaitPid_returns_pid (fun _ => .ok ⟨42, "error!", ""⟩)
      "inject.sh").2.1 ⟨42, "error!", ""⟩ (.injectError ("error!" ++ "")) rfl (by decide)
  · exact (claim5_startAndWaitPid_returns_pid (fun _ => .error "no bash")
      "inject.sh").2.2 "no bash" rfl

/-- C6: `ExecContainer` resolves the runtime client and the container's init
PID first; a resolution failure propagates the wrapped error, returns the
no-PID sentinel and starts no process; otherwise the helper binary is
started with the command line formed exactly as
`<tool> <pid> <namespace-list> <fault-cmd>`. -/
theorem claim6_execContainer_order (env : ExecEnv)
    (cmd cr containerId namespaces : String) :
    (∀ e, (GetClient cr).2 = some e →
      ExecContainer env cmd cr containerId namespaces =
        { pid := NoPid, err := some (.getClientError cr e), started := none }) ∧
    (∀ e, (GetClient cr).2 = none → env.getPid containerId = .error e →
      ExecContainer env cmd cr containerId namespaces =
        { pid := NoPid, err := some (.getPidError containerId e), started := none }) ∧
    (∀ pid, (GetClient cr).2 = none → env.getPid containerId = .ok pid →
      (ExecContainer env cmd cr containerId namespaces).started =
        some (env.toolPath execnsKey ++ " " ++ toString pid ++ " "
          ++ namespaces ++ " " ++ cmd)) := by
  refine ⟨fun e he => ?_, fun e hc he => ?_, fun pid hc hp => ?_⟩
  · simp [ExecContainer, he]
  · simp [ExecContainer, hc, he]
  · simp [ExecContainer, hc, hp, startBashCmdAndWaitPid_started]

/-- Witness for C6: with the docker runtime and a PID lookup returning 100,
the started command line is the exact four-part string; with the containerd
runtime the call fails before any start. -/
theorem claim6_witness :
    (ExecContainer
      { toolPath := fun _ => "/op/tool/execns", getPid := fun _ => .ok 100,
        startProc := fun _ => .ok ⟨7, "[success]", ""⟩ }
      "taskset -c 0" "docker" "cid123" "mnt,pid").started =
      some ("/op/tool/execns" ++ " " ++ toString (100 : Int) ++ " "
        ++ "mnt,pid" ++ " " ++ "taskset -c 0") ∧
    ExecContainer
      { toolPath := fun _ => "/op/tool/execns", getPid := fun _ => .ok 100,
        startProc := fun _ => .ok ⟨7, "[success]", ""⟩ }
      "taskset -c 0" "containerd" "cid123" "mnt,pid" =
      { pid := NoPid, err := some (.getClientError "containerd" .toBeSupported),
        started := none } := by
  refine ⟨?_, ?_⟩
  · exact (claim6_execContainer_order
      { toolPath := fun _ => "/op/tool/execns", getPid := fun _ => .ok 100,
        startProc := fun _ => .ok ⟨7, "[success]", ""⟩ }
      "taskset -c 0" "docker" "cid123" "mnt,pid").2.2 100 (by decide) rfl
  · exact (claim6_execContainer_order
      { toolPath := fun _ => "/op/tool/execns", getPid := fun _ => .ok 100,
        startProc := fun _ => .ok ⟨7, "[success]", ""⟩ }
      "taskset -c 0" "containerd" "cid123" "mnt,pid").1 .toBeSupported (by decide)

/-- C8: the poll loop of `waitProExec` checks the buffers at fixed 200 ms
intervals and exits only at a check where some output has appeared; when the
buffers stay empty forever it never returns — it has no internal deadline,
and (taking no context argument) the exit condition depends on the buffer
contents alone. -/
theorem claim8_poll_never_times_out (obs : Nat → String × String) (k : Nat) :
    (pollStopsAt obs k →
      ((obs k).1 ≠ "" ∨ (obs k).2 ≠ "") ∧
      pollCheckTime k = (k + 1) * InjectCheckInterval ∧ InjectCheckInterval = 200) ∧
    ((∀ j, bothEmpty (obs j) = true) → ¬ pollStopsAt obs k) := by
  constructor
  · intro h
    refine ⟨?_, rfl, rfl⟩
    have h1 := h.1
    simp only [bothEmpty, Bool.and_eq_false_iff, decide_eq_false_iff_not] at h1
    tauto
  · intro hall h
    have h1 := h.1
    rw [hall k] at h1
    exact Bool.noConfusion h1

/-- Witness for C8: a run whose buffers first show output at the very first
check stops there (one 200 ms interval elapsed); a run whose buffers never
fill never stops. -/
theorem claim8_witness :
    (((fun _ => ("[success]", "")) 0).1 ≠ "" ∨ ((fun _ => ("[success]", "")) 0).2 ≠ "") ∧
    ¬ pollStopsAt (fun _ => ("", "")) 5 := by
  constructor
  · exact ((claim8_poll_never_times_out (fun _ => ("[success]", "")) 0).1
      ⟨by decide, fun j hj => absurd hj (Nat.not_lt_zero j)⟩).1
  · exact (claim8_poll_never_times_out (fun _ => ("", "")) 5).2 (fun j => rfl)

/-! ## Helper lemmas for the analyzer -/

/-- A successful `listMapExcept` run pairs inputs and outputs positionally. -/
lemma listMapExcept_ok_forall₂ (f : α → Except ε β) :
    ∀ (l : List α) (bs : List β), listMapExcept f l = .ok bs →
      List.Forall₂ (fun a b => f a = .ok b) l bs := by
  intro l
  induction l with
  | nil =>
    intro bs h
    simp only [listMapExcept] at h
    cases h
    exact List.Forall₂.nil
  | cons a l ih =>
    intro bs h
    simp only [listMapExcept] at h
    rcases ha : f a with e | b <;> rw [ha] at h
    · cases h
    · rcases hrest : listMapExcept f l with e' | bs' <;> rw [hrest] at h
      · simp [Except.map] at h
      · simp only [Except.map, Except.ok.injEq] at h
        subst h
        exact List.Forall₂.cons ha (ih bs' hrest)

/-- If every element of `l` satisfying `P` maps to the error `E`, the others
succeed, and some element satisfies `P`, then the run fails with `E`. -/
lemma listMapExcept_error_of_exists (f : α → Except ε β) (P : α → Prop) (E : ε) :
    ∀ l : List α, (∃ a ∈ l, P a) →
      (∀ a ∈ l, P a → f a = .error E) →
      (∀ a ∈ l, ¬ P a → ∃ b, f a = .ok b) →
      listMapExcept f l = .error E := by
  intro l
  induction l with
  | nil =>
    intro hex _ _
    rcases hex with ⟨a, ha, _⟩
    cases ha
  | cons a l ih =>
    intro hex hall hok
    by_cases hp : P a
    · have ha := hall a (List.mem_cons_self a l) hp
      simp only [listMapExcept, ha]
    · rcases hok a (List.mem_cons_self a l) hp with ⟨b, hb⟩
      have hrest : listMapExcept f l = .error E := by
        apply ih
        · rcases hex with ⟨a', ha', hpa'⟩
          rcases List.mem_cons.mp ha' with rfl | h'
          · exact absurd hpa' hp
          · exact ⟨a', h', hpa'⟩
        · intro x hx hpx
          exact hall x (List.mem_cons_of_mem _ hx) hpx
        · intro x hx hpx
          exact hok x (List.mem_cons_of_mem _ hx) hpx
      simp only [listMapExcept, hb, hrest, Except.map]

/-- Each output of a successful `Forall₂`-related run comes from some input. -/
lemma forall₂_mem_right {R : α → β → Prop} {l : List α} {bs : List β}
    (h : List.Forall₂ R l bs) : ∀ b ∈ bs, ∃ a ∈ l, R a b := by
  induction h with
  | nil =>
    intro b hb
    cases hb
  | cons hr hrest ih =>
    intro b hb
    rcases List.mem_cons.mp hb with rfl | hb'
    · exact ⟨_, List.mem_cons_self _ _, hr⟩
    · rcases ih b hb' with ⟨a, ha, har⟩
      exact ⟨a, List.mem_cons_of_mem _ ha, har⟩

/-- Mapping both sides of a `Forall₂` by functions that agree on related
pairs yields equal lists. -/
lemma forall₂_map_eq {R : α → β → Prop} (g : β → γ) (f : α → γ)
    (hgf : ∀ a b, R a b → g b = f a) :
    ∀ {l : List α} {bs : List β}, List.Forall₂ R l bs → bs.map g = l.map f := by
  intro l bs h
  induction h with
  | nil => rfl
  | cons hr hrest ih => simp [ih, hgf _ _ hr]

/-- A successfully built pod object keeps the pod's name and, when a
container was requested, carries exactly the triple `GetTargetContainer`
resolved. -/
lemma buildPodObject_ok (cname : String) (p : KPod) (o : PodObject)
    (h : buildPodObject cname p = .ok o) :
    o.podName = p.name ∧ (cname ≠ "" →
      GetTargetContainer cname p.containerStatuses =
        .ok (o.containerRuntime, o.containerID, o.containerName)) := by
  simp only [buildPodObject] at h
  by_cases hc : cname = ""
  · rw [if_pos hc] at h
    cases h
    exact ⟨rfl, fun hne => absurd hc hne⟩
  · rw [if_neg hc] at h
    rcases hg : GetTargetContainer cname p.containerStatuses with e | ⟨r, id, nm⟩ <;>
      rw [hg] at h
    · cases h
    · cases h
      exact ⟨rfl, fun _ => rfl⟩

/-- `GetTargetContainer` fails with the not-found error when the explicit
name is absent from a non-empty status list. -/
lemma getTargetContainer_not_found (cname : String) (status : List ContainerStatus)
    (h1 : cname ≠ FirstContainer) (h2 : status ≠ [])
    (h3 : ∀ c ∈ status, c.name ≠ cname) :
    GetTargetContainer cname status = .error (.containerNotFound cname) := by
  match status with
  | [] => exact absurd rfl h2
  | s0 :: rest =>
    have hf : (s0 :: rest).find? (fun c => c.name = cname) = none := by
      rw [List.find?_eq_none]
      intro c hc
      simp [h3 c hc]
    simp only [GetTargetContainer, if_neg h1, hf]

/-- `buildPodObject` fails with the wrapped not-found error when the
requested container is absent from the pod's non-empty status list. -/
lemma buildPodObject_not_found (cname : String) (p : KPod)
    (h0 : cname ≠ "") (h1 : cname ≠ FirstContainer)
    (h2 : p.containerStatuses ≠ [])
    (h3 : ∀ c ∈ p.containerStatuses, c.name ≠ cname) :
    buildPodObject cname p = .error (.inPod p.name (.containerNotFound cname)) := by
  simp only [buildPodObject, if_neg h0, getTargetContainer_not_found cname _ h1 h2 h3]

/-- A successful `packContainer` returns the parse of the selected status's
container ID together with its name. -/
lemma packContainer_ok (c : ContainerStatus) (r id nm : String)
    (h : packContainer c = .ok (r, id, nm)) :
    ParseContainerID c.containerID = .ok (r, id) ∧ nm = c.name := by
  unfold packContainer at h
  rcases hp : ParseContainerID c.containerID with e | ⟨r', id'⟩ <;> rw [hp] at h
  · cases h
  · simp only [Except.ok.injEq, Prod.mk.injEq] at h
    rcases h with ⟨hr, hid, hnm⟩
    subst hr
    subst hid
    subst hnm
    exact ⟨rfl, rfl⟩

/-- `GetPodListByPodName` is the filter of the full listing by the requested
name set, built in listing order with first-error abort. -/
lemma getPodList_eq (names : List String) (cname : String) (pods : List KPod) :
    GetPodListByPodName names cname pods =
      listMapExcept (buildPodObject cname)
        (pods.filter (fun p => names.contains p.name)) := by
  induction pods with
  | nil => rfl
  | cons p rest ih =>
    by_cases hc : p.name ∈ names
    · rcases hb : buildPodObject cname p with e | o <;>
        simp [GetPodListByPodName, List.filter_cons, hc, listMapExcept, hb, ih]
    · simp [GetPodListByPodName, List.filter_cons, hc, ih]

/-- `GetNodeListByNodeName` is the filter of the full listing by the
requested name set, built in listing order with first-error abort. -/
lemma getNodeList_eq (names : List String) (cname : String) (nodes : List KNode) :
    GetNodeListByNodeName names cname nodes =
      listMapExcept (buildNodeObject cname)
        (nodes.filter (fun n => names.contains n.name)) := by
  induction nodes with
  | nil => rfl
  | cons n rest ih =>
    by_cases hc : n.name ∈ names
    · rcases hb : buildNodeObject cname n with e | o <;>
        simp [GetNodeListByNodeName, List.filter_cons, hc, listMapExcept, hb, ih]
    · simp [GetNodeListByNodeName, List.filter_cons, hc, ih]

/-- The address fold never changes the node's name. -/
lemma nodeAddrFold_name (n : NodeObject) (a : NodeAddress) :
    (nodeAddrFold n a).nodeName = n.nodeName := by
  unfold nodeAddrFold
  by_cases h1 : a.addrType = "InternalIP"
  · simp [h1]
  · by_cases h2 : a.addrType = "Hostname" <;> simp [h1, h2]

/-- Folding a whole address list never changes the node's name. -/
lemma foldl_nodeAddrFold_name (addrs : List NodeAddress) :
    ∀ n : NodeObject, (addrs.foldl nodeAddrFold n).nodeName = n.nodeName := by
  induction addrs with
  | nil => intro n; rfl
  | cons a l ih => intro n; rw [List.foldl_cons, ih, nodeAddrFold_name]

/-- A successfully built node object keeps the node's name. -/
lemma buildNodeObject_ok_name (cname : String) (node : KNode) (o : NodeObject)
    (h : buildNodeObject cname node = .ok o) : o.nodeName = node.name := by
  simp only [buildNodeObject] at h
  by_cases hc : cname = ""
  · rw [if_pos hc] at h
    cases h
    exact foldl_nodeAddrFold_name _ _
  · rw [if_neg hc] at h
    rcases hp : ParseContainerID cname with e | ⟨r, id⟩ <;> rw [hp] at h
    · cases h
    · cases h
      exact foldl_nodeAddrFold_name _ _

/-- On success, the returned pod names are exactly the filtered listing's
names, in listing order. -/
lemma getPodList_ok_names (names : List String) (cname : String) (pods : List KPod)
    (objs : List PodObject) (h : GetPodListByPodName names cname pods = .ok objs) :
    objs.map (fun o => o.podName) =
      (pods.filter (fun p => names.contains p.name)).map (fun p => p.name) := by
  rw [getPodList_eq] at h
  exact forall₂_map_eq (fun o => o.podName) (fun p => p.name)
    (fun p o hpo => (buildPodObject_ok cname p o hpo).1)
    (listMapExcept_ok_forall₂ _ _ _ h)

/-- On success, the returned node names are exactly the filtered listing's
names, in listing order. -/
lemma getNodeList_ok_names (names : List String) (cname : String) (nodes : List KNode)
    (objs : List NodeObject) (h : GetNodeListByNodeName names cname nodes = .ok objs) :
    objs.map (fun o => o.nodeName) =
      (nodes.filter (fun n => names.contains n.name)).map (fun n => n.name) := by
  rw [getNodeList_eq] at h
  exact forall₂_map_eq (fun o => o.nodeName) (fun n => n.name)
    (fun n o hno => buildNodeObject_ok_name cname n o hno)
    (listMapExcept_ok_forall₂ _ _ _ h)

/-- By-name pod resolution only reads the requested names through set
membership. -/
lemma getPodList_contains_congr (names₁ names₂ : List String) (cname : String)
    (h : ∀ s, names₁.contains s = names₂.contains s) (pods : List KPod) :
    GetPodListByPodName names₁ cname pods = GetPodListByPodName names₂ cname pods := by
  induction pods with
  | nil => rfl
  | cons p rest ih => simp only [GetPodListByPodName, h p.name, ih]

/-- By-name node resolution only reads the requested names through set
membership. -/
lemma getNodeList_contains_congr (names₁ names₂ : List String) (cname : String)
    (h : ∀ s, names₁.contains s = names₂.contains s) (nodes : List KNode) :
    GetNodeListByNodeName names₁ cname nodes = GetNodeListByNodeName names₂ cname nodes := by
  induction nodes with
  | nil => rfl
  | cons n rest ih => simp only [GetNodeListByNodeName, h n.name, ih]

/-! ## Claim theorems: target analyzer -/

/-- C4: by-name pod resolution lists all pods of the namespace and
intersects with the requested names, returning exactly that subset in
listing order; with a container name supplied every returned pod carries the
triple `GetTargetContainer` resolved for it, and the call fails with the
(wrapped) container-not-found error when the named container is absent from
a matching pod's status list. -/
theorem claim4_getPodListByPodName_resolution (podName : List String)
    (containerName : String) (pods : List KPod) :
    (GetPodListByPodName podName containerName pods =
      listMapExcept (buildPodObject containerName)
        (pods.filter (fun p => podName.contains p.name))) ∧
    (∀ objs, GetPodListByPodName podName containerName pods = .ok objs →
      objs.map (fun o => o.podName) =
        (pods.filter (fun p => podName.contains p.name)).map (fun p => p.name)) ∧
    (∀ objs, containerName ≠ "" →
      GetPodListByPodName podName containerName pods = .ok objs →
      ∀ o ∈ objs, ∃ p ∈ pods, podName.contains p.name = true ∧ p.name = o.podName ∧
        GetTargetContainer containerName p.containerStatuses =
          .ok (o.containerRuntime, o.containerID, o.containerName)) ∧
    (∀ pname, containerName ≠ "" → containerName ≠ FirstContainer →
      (∃ p ∈ pods, p.name = pname ∧ podName.contains pname = true) →
      (∀ q ∈ pods, podName.contains q.name = true → q.name ≠ pname →
        (buildPodObject containerName q).isOk = true) →
      (∀ q ∈ pods, q.name = pname → q.containerStatuses ≠ [] ∧
        ∀ c ∈ q.containerStatuses, c.name ≠ containerName) →
      GetPodListByPodName podName containerName pods =
        .error (.inPod pname (.containerNotFound containerName))) := by
  refine ⟨getPodList_eq podName containerName pods,
    fun objs h => getPodList_ok_names podName containerName pods objs h,
    fun objs hcn h o ho => ?_, fun pname hcn hfc hex hok hbad => ?_⟩
  · rw [getPodList_eq] at h
    rcases forall₂_mem_right (listMapExcept_ok_forall₂ _ _ _ h) o ho with ⟨p, hp, hpo⟩
    have h1 := buildPodObject_ok containerName p o hpo
    exact ⟨p, List.mem_of_mem_filter hp, (List.mem_filter.mp hp).2, h1.1.symm, h1.2 hcn⟩
  · rw [getPodList_eq]
    apply listMapExcept_error_of_exists _ (fun q => q.name = pname)
    · rcases hex with ⟨p, hp, hname, hcont⟩
      have hc : podName.contains p.name = true := by rw [hname]; exact hcont
      exact ⟨p, List.mem_filter_of_mem hp hc, hname⟩
    · intro q hq hqn
      rcases hbad q (List.mem_of_mem_filter hq) hqn with ⟨hne, habs⟩
      have hb := buildPodObject_not_found containerName q hcn hfc hne habs
      rw [hqn] at hb
      exact hb
    · intro q hq hqn
      have hk := hok q (List.mem_of_mem_filter hq) (List.mem_filter.mp hq).2 hqn
      rcases hb : buildPodObject containerName q with e | b
      · rw [hb] at hk
        exact absurd hk (by simp [Except.isOk, Except.toBool])
      · exact ⟨b, rfl⟩

/-- Witness for C4: a single listed pod matching the requested name but
lacking the requested container makes the call fail with the wrapped
container-not-found error. -/
theorem claim4_witness :
    GetPodListByPodName ["p1"] "sidecar"
      [{ name := "p1", uid := "u1", podIP := "1.2.3.4", namespc := "ns",
         nodeName := "n1", hostIP := "9.9.9.9",
         containerStatuses := [{ name := "app", containerID := "docker://aaa" }] }] =
      .error (.inPod "p1" (.containerNotFound "sidecar")) :=
  (claim4_getPodListByPodName_resolution ["p1"] "sidecar"
    [{ name := "p1", uid := "u1", podIP := "1.2.3.4", namespc := "ns",
       nodeName := "n1", hostIP := "9.9.9.9",
       containerStatuses := [{ name := "app", containerID := "docker://aaa" }] }]).2.2.2
    "p1" (by decide) (by decide) (by decide) (by decide) (by decide)

/-- C7: container resolution on a pod fails with the no-containers error on
an empty status list; on a non-empty list the first-container sentinel
selects the first status, an explicit name selects the (first) status with
that exact name and fails with container-not-found when no status has it;
a successful result is the (runtime, id, name) triple parsed from the
selected status. -/
theorem claim7_getTargetContainer_cases (containerName : String)
    (status : List ContainerStatus) :
    (status = [] → GetTargetContainer containerName status = .error .noContainerInPod) ∧
    (∀ s0 rest, status = s0 :: rest → containerName = FirstContainer →
      GetTargetContainer containerName status = packContainer s0) ∧
    (∀ c, containerName ≠ FirstContainer →
      status.find? (fun s => s.name = containerName) = some c →
      GetTargetContainer containerName status = packContainer c) ∧
    (containerName ≠ FirstContainer → status ≠ [] →
      (∀ c ∈ status, c.name ≠ containerName) →
      GetTargetContainer containerName status =
        .error (.containerNotFound containerName)) ∧
    (∀ r id nm, GetTargetContainer containerName status = .ok (r, id, nm) →
      ∃ c ∈ status, ParseContainerID c.containerID = .ok (r, id) ∧ nm = c.name) := by
  refine ⟨fun h => by subst h; rfl, fun s0 rest hst hcn => ?_, fun c hne hf => ?_,
    fun h1 h2 h3 => getTargetContainer_not_found containerName status h1 h2 h3,
    fun r id nm h => ?_⟩
  · subst hst
    simp [GetTargetContainer, hcn]
  · match status, hf with
    | s0 :: rest, hf => simp only [GetTargetContainer, if_neg hne, hf]
  · match status with
    | [] => simp [GetTargetContainer] at h
    | s0 :: rest =>
      by_cases hcn : containerName = FirstContainer
      · simp only [GetTargetContainer, if_pos hcn] at h
        exact ⟨s0, List.mem_cons_self _ _, packContainer_ok s0 r id nm h⟩
      · rcases hfind : (s0 :: rest).find? (fun s => s.name = containerName) with _ | c
        · simp only [GetTargetContainer, if_neg hcn, hfind] at h
          cases h
        · simp only [GetTargetContainer, if_neg hcn, hfind] at h
          exact ⟨c, List.mem_of_find?_eq_some hfind, packContainer_ok c r id nm h⟩

/-- Witness for C7: an explicit name absent from a one-element status list
fails with container-not-found. -/
theorem claim7_witness :
    GetTargetContainer "sidecar" [{ name := "app", containerID := "docker://aaa" }] =
      .error (.containerNotFound "sidecar") :=
  (claim7_getTargetContainer_cases "sidecar"
    [{ name := "app", containerID := "docker://aaa" }]).2.2.2.1
    (by decide) (by decide) (by decide)

/-- C10: by-name resolution of pods and nodes treats the requested names as
a set — two requested lists with identical membership resolve identically,
so a duplicated name cannot duplicate an object — and on success the result
follows the backend's listing order, one object per matching listed item. -/
theorem claim10_byName_set_and_order (names₁ names₂ : List String)
    (cname : String) (pods : List KPod) (nodes : List KNode) :
    ((∀ s, names₁.contains s = names₂.contains s) →
      GetPodListByPodName names₁ cname pods = GetPodListByPodName names₂ cname pods ∧
      GetNodeListByNodeName names₁ cname nodes = GetNodeListByNodeName names₂ cname nodes) ∧
    (∀ objs, GetPodListByPodName names₁ cname pods = .ok objs →
      objs.map (fun o => o.podName) =
        (pods.filter (fun p => names₁.contains p.name)).map (fun p => p.name)) ∧
    (∀ objs, GetNodeListByNodeName names₁ cname nodes = .ok objs →
      objs.map (fun o => o.nodeName) =
        (nodes.filter (fun n => names₁.contains n.name)).map (fun n => n.name)) :=
  ⟨fun h => ⟨getPodList_contains_congr names₁ names₂ cname h pods,
      getNodeList_contains_congr names₁ names₂ cname h nodes⟩,
    fun objs h => getPodList_ok_names names₁ cname pods objs h,
    fun objs h => getNodeList_ok_names names₁ cname nodes objs h⟩

/-- Witness for C10: requesting `["a", "a"]` resolves exactly as requesting
`["a"]`, on a concrete pod and node listing. -/
theorem claim10_witness :
    GetPodListByPodName ["a", "a"] ""
      [{ name := "a", uid := "u", podIP := "i", namespc := "ns",
         nodeName := "n", hostIP := "h", containerStatuses := [] }] =
      GetPodListByPodName ["a"] ""
        [{ name := "a", uid := "u", podIP := "i", namespc := "ns",
           nodeName := "n", hostIP := "h", containerStatuses := [] }] ∧
    GetNodeListByNodeName ["a", "a"] "" [{ name := "a", addresses := [] }] =
      GetNodeListByNodeName ["a"] "" [{ name := "a", addresses := [] }] :=
  (claim10_byName_set_and_order ["a", "a"] ["a"] ""
    [{ name := "a", uid := "u", podIP := "i", namespc := "ns",
       nodeName := "n", hostIP := "h", containerStatuses := [] }]
    [{ name := "a", addresses := [] }]).1
    (fun s => by by_cases h : s = "a" <;> simp [List.contains_cons, h])

/-! ## Helper lemmas for the phase handler and pool -/

/-- Submitting a list of tasks raises the outstanding count by the list
length. -/
lemma foldl_submit_outstanding (l : List α) :
    ∀ p : GoroutinePool,
      (l.foldl (fun q _ => submitTask q) p).outstanding = p.outstanding + l.length := by
  induction l with
  | nil => intro p; rfl
  | cons a l ih =>
    intro p
    rw [List.foldl_cons, ih]
    simp [submitTask]
    omega

/-- Completing a list of tasks lowers the outstanding count by the list
length. -/
lemma foldl_finish_outstanding (l : List α) :
    ∀ p : GoroutinePool,
      (l.foldl (fun q _ => finishTask q) p).outstanding = p.outstanding - l.length := by
  induction l with
  | nil => intro p; rfl
  | cons a l ih =>
    intro p
    rw [List.foldl_cons, ih]
    simp [finishTask]
    omega

/-! ## Claim theorems: phase handler and pool -/

/-- C3: when every `QueryExperiment` call fails during a `SolveRunning` pass
over an experiment whose active-direction details are all `Running`, every
detail unit ends `Failed` and the overall status ends `Failed`; and for any
query behaviour, a `Running` experiment's overall status becomes `Succeeded`
only if every detail unit succeeded. -/
theorem claim3_solveRunning_failure_aggregation
    (query : DetailUnit → Except String StatusType) (st : ExpStatus) :
    ((∀ u, ∃ e, query u = .error e) → (∀ u ∈ st.recover, u.status = .running) →
      st.recover ≠ [] →
      (∀ u ∈ (SolveRunning query st).recover, u.status = .failed) ∧
      (SolveRunning query st).status = .failed) ∧
    (st.status = .running → (SolveRunning query st).status = .success →
      ∀ u ∈ (SolveRunning query st).recover, u.status = .success) := by
  constructor
  · intro hq hrun hne
    have hmap : ∀ u ∈ st.recover.map (solveRunningUnit query), u.status = .failed := by
      intro u hu
      rcases List.mem_map.mp hu with ⟨v, hv, rfl⟩
      rcases hq v with ⟨e, he⟩
      simp [solveRunningUnit, hrun v hv, he]
    refine ⟨fun u hu => hmap u hu, ?_⟩
    have hterm : (st.recover.map (solveRunningUnit query)).all
        (fun u => isTerminal u.status) = true := by
      rw [List.all_eq_true]
      intro u hu
      rw [hmap u hu]
      rfl
    show (SolveRunning query st).status = .failed
    simp only [SolveRunning]
    rw [if_pos hterm]
    rcases hr : st.recover with _ | ⟨v, rest⟩
    · exact absurd hr hne
    · have hv : (solveRunningUnit query v).status = .failed := by
        rcases hq v with ⟨e, he⟩
        have hvr : v.status = .running := hrun v (by rw [hr]; exact List.mem_cons_self v rest)
        simp [solveRunningUnit, hvr, he]
      simp [List.map_cons, List.all_cons, hv]
  · intro hst hsucc u hu
    have hu' : u ∈ st.recover.map (solveRunningUnit query) := hu
    by_cases hterm : (st.recover.map (solveRunningUnit query)).all
        (fun u => isTerminal u.status) = true
    · by_cases hall : (st.recover.map (solveRunningUnit query)).all
          (fun u => u.status = .success) = true
      · have := List.all_eq_true.mp hall u hu'
        simpa using this
      · have : (SolveRunning query st).status = .failed := by
          simp only [SolveRunning]
          rw [if_pos hterm, if_neg hall]
        rw [this] at hsucc
        cases hsucc
    · have : (SolveRunning query st).status = st.status := by
        simp only [SolveRunning]
        rw [if_neg hterm]
      rw [this, hst] at hsucc
      cases hsucc

/-- Witness for C3 at the test scenario: two `Running` recover targets whose
queries both fail end with both detail units and the overall status
`Failed`. -/
theorem claim3_witness :
    (∀ u ∈ (SolveRunning (fun _ => .error "expected fail")
        { status := .running,
          recover := [{ injectObjectName := "pod/chaosmeta/chaosmeta-1", uid := "fwaf1",
                        status := .running },
                      { injectObjectName := "pod/chaosmeta/chaosmeta-2", uid := "fwaf2",
                        status := .running }] }).recover,
      u.status = .failed) ∧
    (SolveRunning (fun _ => .error "expected fail")
      { status := .running,
        recover := [{ injectObjectName := "pod/chaosmeta/chaosmeta-1", uid := "fwaf1",
                      status := .running },
                    { injectObjectName := "pod/chaosmeta/chaosmeta-2", uid := "fwaf2",
                      status := .running }] }).status = .failed :=
  (claim3_solveRunning_failure_aggregation (fun _ => .error "expected fail")
    { status := .running,
      recover := [{ injectObjectName := "pod/chaosmeta/chaosmeta-1", uid := "fwaf1",
                    status := .running },
                  { injectObjectName := "pod/chaosmeta/chaosmeta-2", uid := "fwaf2",
                    status := .running }] }).1
    (fun _ => ⟨"expected fail", rfl⟩) (by decide) (by decide)

/-- C9: for every pool size ≥ 1, after a completed phase-handler pass — one
task submitted per target and every submission joined before the pass
returns — the shared pool's outstanding-count is back to 0. -/
theorem claim9_pool_outstanding_zero (size : Nat) (targets : List α)
    (h : 1 ≤ size) : GetLen (runPhasePass (mkPool size) targets) = 0 := by
  simp only [runPhasePass, GetLen]
  rw [foldl_finish_outstanding, foldl_submit_outstanding]
  simp [mkPool]

/-- Witness for C9 at pool size 5 and three targets. -/
theorem claim9_witness : GetLen (runPhasePass (mkPool 5) [0, 1, 2]) = 0 :=
  claim9_pool_outstanding_zero 5 [0, 1, 2] (by decide)

end Chaosmeta
